import Mathlib

/-!
Verification of the image bulk tool's content-detection, geometry-planning and
color-statistics engine.

The definitions below are a shallow embedding of the TypeScript sources
(`ImageProcessor` in the image-processor module and `ColorAnalyzer` in the
color-analyzer module).  JavaScript numbers are modelled as exact values:
integer-valued quantities (pixel coordinates, crop rectangles, paddings,
tolerances) as `Int`/`Nat`, fractional quantities (ratios, scales, color
statistics) as `ℚ`.  `Math.round x` is modelled as `⌊x + 1/2⌋`, which agrees
with the JavaScript semantics on all inputs.  `Math.floor` on non-negative
values is `Nat` division.  Fallible operations return `Option`/`Except`.
-/

/-- One decoded pixel: red, green, blue, alpha channel values (bytes read from
the raw buffer, held as JavaScript numbers). -/
structure Pixel where
  r : Int
  g : Int
  b : Int
  a : Int
deriving DecidableEq

/-- Abstraction of a decoded raw buffer together with the sharp metadata used
for strategy dispatch: `hasAlpha` is `metadata.hasAlpha`, `indexedPng` is the
`metadata.format === 'png' && metadata.channels <= 2` test.  `px x y` is the
pixel at column `x`, row `y` after `ensureAlpha` (so an alpha value is always
present). -/
structure PixelBuffer where
  width : Nat
  height : Nat
  hasAlpha : Bool
  indexedPng : Bool
  px : Nat → Nat → Pixel

/-- Result record of `analyzeImageContent` (interface `ContentBounds`). -/
structure ContentBounds where
  left : Int
  top : Int
  width : Int
  height : Int
  centerX : ℚ
  centerY : ℚ
  hasContent : Bool
deriving DecidableEq

/-- Traversal order of the double pixel loop `for y ... for x ...` used by all
three detection strategies. -/
def pixelList (w h : Nat) : List (Nat × Nat) :=
  (List.range h).flatMap (fun y => (List.range w).map (fun x => (x, y)))

/-- Mutable loop state of a bounding-box scan: `minX`, `maxX`, `minY`, `maxY`
and the `hasContent` flag. -/
structure ScanState where
  minX : Int
  maxX : Int
  minY : Int
  maxY : Int
  hasContent : Bool
deriving DecidableEq

/-- Initial scan state: `minX = width`, `maxX = 0`, `minY = height`,
`maxY = 0`, `hasContent = false`. -/
def scanInit (w h : Nat) : ScanState :=
  ⟨(w : Int), 0, (h : Int), 0, false⟩

/-- Body of the scan loop: when the pixel qualifies as foreground, fold it
into the running min/max and set `hasContent`. -/
def scanStep (fg : Nat → Nat → Bool) (s : ScanState) (p : Nat × Nat) : ScanState :=
  if fg p.1 p.2 then
    ⟨min s.minX (p.1 : Int), max s.maxX (p.1 : Int),
     min s.minY (p.2 : Int), max s.maxY (p.2 : Int), true⟩
  else s

/-- Shared bounding-box scan of the three strategies: iterate over every pixel,
then either report the tight content box or, when nothing qualified, the full
buffer with `hasContent = false`. -/
def scanBounds (fg : Nat → Nat → Bool) (w h : Nat) : ContentBounds :=
  let s := (pixelList w h).foldl (scanStep fg) (scanInit w h)
  if s.hasContent then
    let contentWidth := s.maxX - s.minX + 1
    let contentHeight := s.maxY - s.minY + 1
    ⟨s.minX, s.minY, contentWidth, contentHeight,
     (s.minX : ℚ) + (contentWidth : ℚ) / 2,
     (s.minY : ℚ) + (contentHeight : ℚ) / 2, true⟩
  else
    ⟨0, 0, (w : Int), (h : Int), (w : ℚ) / 2, (h : ℚ) / 2, false⟩

/-- Foreground test of the alpha strategy: `alpha > tolerance`. -/
def alphaForeground (buf : PixelBuffer) (tolerance : Int) (x y : Nat) : Bool :=
  tolerance < (buf.px x y).a

/-- Squared Euclidean RGB distance between two pixels (`getColorDistance`
computes its square root). -/
def colorDistSq (c1 c2 : Pixel) : Int :=
  (c1.r - c2.r) ^ 2 + (c1.g - c2.g) ^ 2 + (c1.b - c2.b) ^ 2

/-- Exact decidable form of `Math.sqrt d2 > tolerance` for `d2 ≥ 0`: the square
root of a non-negative number exceeds `tolerance` iff `tolerance` is negative
or `tolerance ^ 2 < d2`. -/
def colorDiffExceeds (d2 tolerance : Int) : Bool :=
  tolerance < 0 || tolerance ^ 2 < d2

/-- Background color used by the color strategy: `findBackgroundColor` returns
`cornerSamples[0]`, the top-left pixel. -/
def backgroundColor (buf : PixelBuffer) : Pixel :=
  buf.px 0 0

/-- Foreground test of the color strategy: Euclidean RGB distance from the
background color exceeds `tolerance`. -/
def colorForeground (buf : PixelBuffer) (tolerance : Int) (x y : Nat) : Bool :=
  colorDiffExceeds (colorDistSq (buf.px x y) (backgroundColor buf)) tolerance

/-- Strategy 1 (`analyzeAlphaContent`): alpha-threshold scan of every pixel. -/
def analyzeAlphaContent (buf : PixelBuffer) (tolerance : Int) : ContentBounds :=
  scanBounds (alphaForeground buf tolerance) buf.width buf.height

/-- Strategy 2 (`analyzeIndexedContent`): after the external codec expands the
palette, the very same alpha-threshold scan runs on the expanded buffer (the
expansion is the identity on the abstract pixel grid). -/
def analyzeIndexedContent (buf : PixelBuffer) (tolerance : Int) : ContentBounds :=
  scanBounds (alphaForeground buf tolerance) buf.width buf.height

/-- Strategy 3 (`analyzeColorContent`): background-color-distance scan. -/
def analyzeColorContent (buf : PixelBuffer) (tolerance : Int) : ContentBounds :=
  scanBounds (colorForeground buf tolerance) buf.width buf.height

/-- Strategy dispatch of `analyzeImageContent`: alpha-based when the image has
an alpha channel, palette expansion for indexed PNGs, otherwise
background-color distance. -/
def analyzeImageContent (buf : PixelBuffer) (tolerance : Int) : ContentBounds :=
  if buf.hasAlpha then analyzeAlphaContent buf tolerance
  else if buf.indexedPng then analyzeIndexedContent buf tolerance
  else analyzeColorContent buf tolerance

/-- Foreground classification of a pixel under whichever strategy
`analyzeImageContent` dispatches to for this buffer. -/
def foregroundPixel (buf : PixelBuffer) (tolerance : Int) (x y : Nat) : Bool :=
  if buf.hasAlpha then alphaForeground buf tolerance x y
  else if buf.indexedPng then alphaForeground buf tolerance x y
  else colorForeground buf tolerance x y

lemma mem_pixelList {w h : Nat} {p : Nat × Nat} :
    p ∈ pixelList w h ↔ p.1 < w ∧ p.2 < h := by
  obtain ⟨x, y⟩ := p
  simp only [pixelList, List.mem_flatMap, List.mem_map, List.mem_range, Prod.mk.injEq]
  constructor
  · rintro ⟨y0, hy0, x0, hx0, hx, hy⟩
    subst hx; subst hy; exact ⟨hx0, hy0⟩
  · rintro ⟨hx, hy⟩
    exact ⟨y, hy, x, hx, rfl, rfl⟩

lemma scanStep_hasContent (fg : Nat → Nat → Bool) (s : ScanState) (p : Nat × Nat) :
    (scanStep fg s p).hasContent = (s.hasContent || fg p.1 p.2) := by
  unfold scanStep
  by_cases hfg : fg p.1 p.2 <;> simp [hfg]

lemma foldl_scan_hasContent (fg : Nat → Nat → Bool) (l : List (Nat × Nat)) (s : ScanState) :
    (l.foldl (scanStep fg) s).hasContent = (s.hasContent || l.any (fun p => fg p.1 p.2)) := by
  induction l generalizing s with
  | nil => simp
  | cons p l ih =>
    simp [List.foldl_cons, ih, scanStep_hasContent, Bool.or_assoc]

/-- Invariant of the bounding-box scan: as long as nothing qualified the state
is still the initial one; once something qualified, the tracked min/max values
are a non-empty sub-range of the buffer. -/
def ScanInv (w h : Nat) (s : ScanState) : Prop :=
  (s.hasContent = false → s = scanInit w h) ∧
  (s.hasContent = true →
    0 ≤ s.minX ∧ s.minX ≤ s.maxX ∧ s.maxX < (w : Int) ∧
    0 ≤ s.minY ∧ s.minY ≤ s.maxY ∧ s.maxY < (h : Int))

lemma scanInv_init (w h : Nat) : ScanInv w h (scanInit w h) := by
  constructor
  · intro _; rfl
  · intro hc; simp [scanInit] at hc

lemma scanInv_step (fg : Nat → Nat → Bool) (w h : Nat) (s : ScanState) (p : Nat × Nat)
    (hp1 : p.1 < w) (hp2 : p.2 < h) (hs : ScanInv w h s) :
    ScanInv w h (scanStep fg s p) := by
  unfold scanStep
  by_cases hfg : fg p.1 p.2
  · simp only [hfg, if_true]
    constructor
    · intro hc; simp at hc
    · intro _
      rcases hs with ⟨hfalse, htrue⟩
      by_cases hc : s.hasContent = true
      · obtain ⟨a1, a2, a3, a4, a5, a6⟩ := htrue hc
        dsimp only
        refine ⟨?_, ?_, ?_, ?_, ?_, ?_⟩ <;> omega
      · have hinit := hfalse (by simpa using hc)
        rw [hinit]
        dsimp only [scanInit]
        refine ⟨?_, ?_, ?_, ?_, ?_, ?_⟩ <;> omega
  · simpa [hfg] using hs

lemma foldl_scanInv (fg : Nat → Nat → Bool) (w h : Nat) (l : List (Nat × Nat))
    (hl : ∀ p ∈ l, p.1 < w ∧ p.2 < h) (s : ScanState) (hs : ScanInv w h s) :
    ScanInv w h (l.foldl (scanStep fg) s) := by
  induction l generalizing s with
  | nil => simpa using hs
  | cons p l ih =>
    simp only [List.foldl_cons]
    refine ih (fun q hq => hl q (by simp [hq])) _ ?_
    exact scanInv_step fg w h s p (hl p (by simp)).1 (hl p (by simp)).2 hs

lemma scanBounds_state_hasContent (fg : Nat → Nat → Bool) (w h : Nat) :
    (scanBounds fg w h).hasContent =
      ((pixelList w h).foldl (scanStep fg) (scanInit w h)).hasContent := by
  simp only [scanBounds]
  split
  next hc => simpa using hc.symm
  next hc =>
    simp only [Bool.not_eq_true] at hc
    simpa using hc.symm

lemma scanBounds_hasContent (fg : Nat → Nat → Bool) (w h : Nat) :
    (scanBounds fg w h).hasContent = (pixelList w h).any (fun p => fg p.1 p.2) := by
  have hfold := foldl_scan_hasContent fg (pixelList w h) (scanInit w h)
  rw [show (scanInit w h).hasContent = false from rfl, Bool.false_or] at hfold
  rw [scanBounds_state_hasContent, hfold]

lemma scanBounds_hasContent_iff (fg : Nat → Nat → Bool) (w h : Nat) :
    (scanBounds fg w h).hasContent = true ↔
      ∃ x, x < w ∧ ∃ y, y < h ∧ fg x y = true := by
  rw [scanBounds_hasContent, List.any_eq_true]
  constructor
  · rintro ⟨p, hp, hfg⟩
    exact ⟨p.1, (mem_pixelList.mp hp).1, p.2, (mem_pixelList.mp hp).2, hfg⟩
  · rintro ⟨x, hx, y, hy, hfg⟩
    exact ⟨(x, y), mem_pixelList.mpr ⟨hx, hy⟩, hfg⟩

/-- Postcondition of the shared scan when at least one pixel qualified: the
bounds describe a non-empty rectangle inside the buffer. -/
lemma scanBounds_pos (fg : Nat → Nat → Bool) (w h : Nat)
    (hc : (scanBounds fg w h).hasContent = true) :
    0 ≤ (scanBounds fg w h).left ∧ 0 ≤ (scanBounds fg w h).top ∧
    0 < (scanBounds fg w h).width ∧ 0 < (scanBounds fg w h).height ∧
    (scanBounds fg w h).left + (scanBounds fg w h).width ≤ (w : Int) ∧
    (scanBounds fg w h).top + (scanBounds fg w h).height ≤ (h : Int) := by
  have hinv := foldl_scanInv fg w h (pixelList w h)
    (fun p hp => mem_pixelList.mp hp) (scanInit w h) (scanInv_init w h)
  have hsc : ((pixelList w h).foldl (scanStep fg) (scanInit w h)).hasContent = true := by
    rw [← scanBounds_state_hasContent]; exact hc
  obtain ⟨a1, a2, a3, a4, a5, a6⟩ := hinv.2 hsc
  simp only [scanBounds, hsc, if_true]
  refine ⟨by omega, by omega, by omega, by omega, by omega, by omega⟩

/-- Postcondition of the shared scan when no pixel qualified: the returned
bounds span the whole buffer and `hasContent` is false. -/
lemma scanBounds_none (fg : Nat → Nat → Bool) (w h : Nat)
    (hc : (scanBounds fg w h).hasContent = false) :
    (scanBounds fg w h).left = 0 ∧ (scanBounds fg w h).top = 0 ∧
    (scanBounds fg w h).width = (w : Int) ∧ (scanBounds fg w h).height = (h : Int) := by
  have hsc : ((pixelList w h).foldl (scanStep fg) (scanInit w h)).hasContent = false := by
    rw [← scanBounds_state_hasContent]; exact hc
  simp [scanBounds, hsc]

/-- Dispatch is transparent: `analyzeImageContent` is the shared scan run with
the dispatched foreground classifier. -/
lemma analyzeImageContent_eq_scan (buf : PixelBuffer) (tolerance : Int) :
    analyzeImageContent buf tolerance =
      scanBounds (foregroundPixel buf tolerance) buf.width buf.height := by
  unfold analyzeImageContent foregroundPixel analyzeAlphaContent analyzeIndexedContent
    analyzeColorContent
  by_cases h1 : buf.hasAlpha <;> by_cases h2 : buf.indexedPng <;> simp [h1, h2]

/-- Options of `cropToContent` (interface `CropOptions`): optional uniform
padding, optional per-side paddings, alpha-threshold tolerance and the minimum
content-to-image area fraction (source field `minContentRatio`) guarding
against over-aggressive crops. -/
structure CropOptions where
  padding : Option Int
  paddingTop : Option Int
  paddingRight : Option Int
  paddingBottom : Option Int
  paddingLeft : Option Int
  tolerance : Int
  minContentFrac : ℚ

/-- Crop rectangle handed to the external extraction primitive. -/
structure Rect where
  left : Int
  top : Int
  width : Int
  height : Int
deriving DecidableEq

/-- Resolved top padding: `options.paddingTop ?? options.padding ?? 20`. -/
def resolvePaddingTop (options : CropOptions) : Int :=
  (options.paddingTop).getD ((options.padding).getD 20)

/-- Resolved right padding: `options.paddingRight ?? options.padding ?? 20`. -/
def resolvePaddingRight (options : CropOptions) : Int :=
  (options.paddingRight).getD ((options.padding).getD 20)

/-- Resolved bottom padding: `options.paddingBottom ?? options.padding ?? 20`. -/
def resolvePaddingBottom (options : CropOptions) : Int :=
  (options.paddingBottom).getD ((options.padding).getD 20)

/-- Resolved left padding: `options.paddingLeft ?? options.padding ?? 20`. -/
def resolvePaddingLeft (options : CropOptions) : Int :=
  (options.paddingLeft).getD ((options.padding).getD 20)

/-- Content-to-image area fraction computed by `cropToContent` (source local
`contentRatio`): `(bounds.width * bounds.height) / (width * height)`. -/
def contentFraction (buf : PixelBuffer) (contentBounds : ContentBounds) : ℚ :=
  ((contentBounds.width * contentBounds.height : Int) : ℚ) /
    ((buf.width * buf.height : Nat) : ℚ)

/-- Crop rectangle planned by `cropToContent` once both guards pass:
`cropLeft = max(0, left - paddingLeft)`,
`cropWidth = min(width + paddingLeft + paddingRight, originalWidth - cropLeft)`,
and symmetrically for the vertical axis. -/
def planContentCrop (buf : PixelBuffer) (contentBounds : ContentBounds)
    (options : CropOptions) : Rect :=
  let paddingTop := resolvePaddingTop options
  let paddingRight := resolvePaddingRight options
  let paddingBottom := resolvePaddingBottom options
  let paddingLeft := resolvePaddingLeft options
  let cropLeft := max 0 (contentBounds.left - paddingLeft)
  let cropTop := max 0 (contentBounds.top - paddingTop)
  let cropWidth := min (contentBounds.width + paddingLeft + paddingRight)
    ((buf.width : Int) - cropLeft)
  let cropHeight := min (contentBounds.height + paddingTop + paddingBottom)
    ((buf.height : Int) - cropTop)
  ⟨cropLeft, cropTop, cropWidth, cropHeight⟩

/-- Geometry of `cropToContent`: analyze content, return the original buffer
unchanged (`none`) when metadata is unusable, no content was found, or the
content fraction is below the configured minimum; otherwise plan the padded
crop rectangle that the source passes to `sharp.extract`. -/
def cropToContent (buf : PixelBuffer) (options : CropOptions) : Option Rect :=
  let contentBounds := analyzeImageContent buf options.tolerance
  if buf.width = 0 ∨ buf.height = 0 ∨ contentBounds.hasContent = false then none
  else if contentFraction buf contentBounds < options.minContentFrac then none
  else some (planContentCrop buf contentBounds options)

/-- Bounds invariant of the analyzer whenever content was found, together with
positivity of the buffer dimensions (a qualifying pixel exists, so the buffer
is non-empty). -/
lemma analyzeImageContent_pos (buf : PixelBuffer) (tolerance : Int)
    (hc : (analyzeImageContent buf tolerance).hasContent = true) :
    0 < buf.width ∧ 0 < buf.height ∧
    0 ≤ (analyzeImageContent buf tolerance).left ∧
    0 ≤ (analyzeImageContent buf tolerance).top ∧
    0 < (analyzeImageContent buf tolerance).width ∧
    0 < (analyzeImageContent buf tolerance).height ∧
    (analyzeImageContent buf tolerance).left + (analyzeImageContent buf tolerance).width
      ≤ (buf.width : Int) ∧
    (analyzeImageContent buf tolerance).top + (analyzeImageContent buf tolerance).height
      ≤ (buf.height : Int) := by
  rw [analyzeImageContent_eq_scan] at hc ⊢
  obtain ⟨b1, b2, b3, b4, b5, b6⟩ := scanBounds_pos _ _ _ hc
  obtain ⟨x, hx, y, hy, -⟩ := (scanBounds_hasContent_iff _ _ _).mp hc
  exact ⟨by omega, by omega, b1, b2, b3, b4, b5, b6⟩

/-- C2: for every buffer, `analyzeImageContent` satisfies the `ContentBounds`
postcondition.  When at least one pixel qualifies as foreground under the
dispatched strategy, `hasContent` is true and the bounds lie inside the
buffer (`0 ≤ left`, `left + width ≤ bufferWidth`, and analogously for
top/height); when no pixel qualifies, `hasContent` is false and the bounds
equal the full buffer. -/
theorem analyzeImageContent_postcondition (buf : PixelBuffer) (tolerance : Int) :
    ((∃ x, x < buf.width ∧ ∃ y, y < buf.height ∧ foregroundPixel buf tolerance x y = true) →
      (analyzeImageContent buf tolerance).hasContent = true ∧
      0 ≤ (analyzeImageContent buf tolerance).left ∧
      (analyzeImageContent buf tolerance).left + (analyzeImageContent buf tolerance).width
        ≤ (buf.width : Int) ∧
      0 ≤ (analyzeImageContent buf tolerance).top ∧
      (analyzeImageContent buf tolerance).top + (analyzeImageContent buf tolerance).height
        ≤ (buf.height : Int)) ∧
    ((∀ x, x < buf.width → ∀ y, y < buf.height → foregroundPixel buf tolerance x y = false) →
      (analyzeImageContent buf tolerance).hasContent = false ∧
      (analyzeImageContent buf tolerance).left = 0 ∧
      (analyzeImageContent buf tolerance).top = 0 ∧
      (analyzeImageContent buf tolerance).width = (buf.width : Int) ∧
      (analyzeImageContent buf tolerance).height = (buf.height : Int)) := by
  constructor
  · intro hex
    have hc : (analyzeImageContent buf tolerance).hasContent = true := by
      rw [analyzeImageContent_eq_scan]
      exact (scanBounds_hasContent_iff _ _ _).mpr hex
    obtain ⟨-, -, b1, b2, -, -, b5, b6⟩ := analyzeImageContent_pos buf tolerance hc
    exact ⟨hc, b1, b5, b2, b6⟩
  · intro hall
    have hc : (analyzeImageContent buf tolerance).hasContent = false := by
      rw [analyzeImageContent_eq_scan, scanBounds_hasContent]
      rw [List.any_eq_false]
      intro p hp
      obtain ⟨hx, hy⟩ := mem_pixelList.mp hp
      simp [hall p.1 hx p.2 hy]
    rw [analyzeImageContent_eq_scan] at hc ⊢
    obtain ⟨n1, n2, n3, n4⟩ := scanBounds_none _ _ _ hc
    exact ⟨hc, n1, n2, n3, n4⟩

/-- Small concrete buffer used to instantiate the content-detection theorems:
a 2×2 RGBA image whose only opaque pixel sits at the origin. -/
def demoBuf : PixelBuffer :=
  ⟨2, 2, true, false, fun x y => if x = 0 ∧ y = 0 then ⟨10, 20, 30, 255⟩ else ⟨0, 0, 0, 0⟩⟩

/-- Witness for C2: on `demoBuf` with tolerance 10 the foreground pixel at the
origin forces `hasContent` with in-range bounds. -/
theorem analyzeImageContent_postcondition_witness :
    (analyzeImageContent demoBuf 10).hasContent = true ∧
    0 ≤ (analyzeImageContent demoBuf 10).left ∧
    (analyzeImageContent demoBuf 10).left + (analyzeImageContent demoBuf 10).width ≤ (2 : Int) ∧
    0 ≤ (analyzeImageContent demoBuf 10).top ∧
    (analyzeImageContent demoBuf 10).top + (analyzeImageContent demoBuf 10).height ≤ (2 : Int) :=
  (analyzeImageContent_postcondition demoBuf 10).1 ⟨0, by decide, 0, by decide, by decide⟩

/-- C1: for valid `CropOptions` (non-negative paddings and tolerance, minimum
content fraction in `[0,1]`), whenever content is detected and the content
fraction passes the guard, `cropToContent` plans a crop rectangle that lies
entirely inside the source buffer and whose width and height are at least the
detected content's width and height. -/
theorem cropToContent_inBounds (buf : PixelBuffer) (options : CropOptions)
    (htol : 0 ≤ options.tolerance)
    (hpt : 0 ≤ resolvePaddingTop options) (hpr : 0 ≤ resolvePaddingRight options)
    (hpb : 0 ≤ resolvePaddingBottom options) (hpl : 0 ≤ resolvePaddingLeft options)
    (hm0 : 0 ≤ options.minContentFrac) (hm1 : options.minContentFrac ≤ 1)
    (hc : (analyzeImageContent buf options.tolerance).hasContent = true)
    (hfrac : options.minContentFrac ≤
      contentFraction buf (analyzeImageContent buf options.tolerance)) :
    cropToContent buf options =
      some (planContentCrop buf (analyzeImageContent buf options.tolerance) options) ∧
    0 ≤ (planContentCrop buf (analyzeImageContent buf options.tolerance) options).left ∧
    0 ≤ (planContentCrop buf (analyzeImageContent buf options.tolerance) options).top ∧
    (planContentCrop buf (analyzeImageContent buf options.tolerance) options).left +
      (planContentCrop buf (analyzeImageContent buf options.tolerance) options).width
        ≤ (buf.width : Int) ∧
    (planContentCrop buf (analyzeImageContent buf options.tolerance) options).top +
      (planContentCrop buf (analyzeImageContent buf options.tolerance) options).height
        ≤ (buf.height : Int) ∧
    (analyzeImageContent buf options.tolerance).width ≤
      (planContentCrop buf (analyzeImageContent buf options.tolerance) options).width ∧
    (analyzeImageContent buf options.tolerance).height ≤
      (planContentCrop buf (analyzeImageContent buf options.tolerance) options).height := by
  obtain ⟨hw, hh, b1, b2, b3, b4, b5, b6⟩ := analyzeImageContent_pos buf options.tolerance hc
  refine ⟨?_, ?_, ?_, ?_, ?_, ?_, ?_⟩
  · simp only [cropToContent]
    rw [if_neg (by simp [hc]; omega), if_neg (not_lt.mpr hfrac)]
  all_goals simp only [planContentCrop]
  all_goals omega

/-- Crop options used to instantiate the content-crop theorem: uniform padding
1, tolerance 10, minimum content fraction 1/4. -/
def demoCropOptions : CropOptions :=
  ⟨some 1, none, none, none, none, 10, 1/4⟩

/-- Witness for C1: on `demoBuf` with `demoCropOptions` all guards pass and
the planned rectangle stays inside the 2×2 buffer. -/
theorem cropToContent_inBounds_witness :
    cropToContent demoBuf demoCropOptions =
      some (planContentCrop demoBuf (analyzeImageContent demoBuf 10) demoCropOptions) ∧
    0 ≤ (planContentCrop demoBuf (analyzeImageContent demoBuf 10) demoCropOptions).left ∧
    0 ≤ (planContentCrop demoBuf (analyzeImageContent demoBuf 10) demoCropOptions).top ∧
    (planContentCrop demoBuf (analyzeImageContent demoBuf 10) demoCropOptions).left +
      (planContentCrop demoBuf (analyzeImageContent demoBuf 10) demoCropOptions).width
        ≤ (2 : Int) ∧
    (planContentCrop demoBuf (analyzeImageContent demoBuf 10) demoCropOptions).top +
      (planContentCrop demoBuf (analyzeImageContent demoBuf 10) demoCropOptions).height
        ≤ (2 : Int) ∧
    (analyzeImageContent demoBuf 10).width ≤
      (planContentCrop demoBuf (analyzeImageContent demoBuf 10) demoCropOptions).width ∧
    (analyzeImageContent demoBuf 10).height ≤
      (planContentCrop demoBuf (analyzeImageContent demoBuf 10) demoCropOptions).height :=
  cropToContent_inBounds demoBuf demoCropOptions (by decide) (by decide) (by decide)
    (by decide) (by decide) (by norm_num [demoCropOptions]) (by norm_num [demoCropOptions])
    (by decide)
    (by
      have h1 : (analyzeImageContent demoBuf 10).width = 1 := by decide
      have h2 : (analyzeImageContent demoBuf 10).height = 1 := by decide
      have h3 : demoBuf.width = 2 := rfl
      have h4 : demoBuf.height = 2 := rfl
      simp only [demoCropOptions, contentFraction, h1, h2, h3, h4]
      norm_num)

/-- JavaScript `Math.round`: round half up, `⌊x + 1/2⌋`. -/
def jround (q : ℚ) : Int :=
  ⌊q + 1/2⌋

/-- Per-layer transform authored against the preview canvas (interface
`LayerTransformation`): scale, pixel offsets, and an optional percentage-based
sub-crop. -/
structure LayerTransformation where
  scale : ℚ
  x : ℚ
  y : ℚ
  cropEnabled : Bool
  cropX : Option ℚ
  cropY : Option ℚ
  cropWidth : Option ℚ
  cropHeight : Option ℚ

/-- Geometry computed by `processLayerImageCorrected`: the resized dimensions
of the layer and the top-left offset at which it is composited onto the
square output canvas. -/
structure LayerPlacement where
  finalWidth : Int
  finalHeight : Int
  left : Int
  top : Int
deriving DecidableEq

lemma jround_intCast (n : Int) : jround ((n : ℚ)) = n := by
  unfold jround
  rw [Int.floor_int_add]
  norm_num

lemma le_jround {n : Int} {q : ℚ} (h : (n : ℚ) ≤ q) : n ≤ jround q := by
  unfold jround
  rw [Int.le_floor]
  linarith

lemma jround_le {q : ℚ} {n : Int} (h : q < (n : ℚ) + 1/2) : jround q ≤ n := by
  unfold jround
  rw [Int.floor_le_iff]
  linarith

/-- Sub-crop step of `processLayerImageCorrected`: when `cropEnabled`, the
percentage crop values (defaulting to `0/0/100/100`) are converted to pixels
of the source and clamped so the crop does not exceed the source bounds;
otherwise the source dimensions pass through unchanged. -/
def layerActualDims (srcWidth srcHeight : Int)
    (transformation : LayerTransformation) : Int × Int :=
  if transformation.cropEnabled then
    let cropX := (transformation.cropX).getD 0
    let cropY := (transformation.cropY).getD 0
    let cropWidth := (transformation.cropWidth).getD 100
    let cropHeight := (transformation.cropHeight).getD 100
    let cropXPixels := jround (cropX * (srcWidth : ℚ) / 100)
    let cropYPixels := jround (cropY * (srcHeight : ℚ) / 100)
    let cropWidthPixels := jround (cropWidth * (srcWidth : ℚ) / 100)
    let cropHeightPixels := jround (cropHeight * (srcHeight : ℚ) / 100)
    (min cropWidthPixels (srcWidth - cropXPixels),
     min cropHeightPixels (srcHeight - cropYPixels))
  else (srcWidth, srcHeight)

/-- Final dimension of one axis in `processLayerImageCorrected`:
`finalScaleForOutput = scale / (canvasSize / outputSize)` with the hard-coded
preview `canvasSize = 400`, then
`max(1, min(outputSize, round(actualDim * finalScaleForOutput)))`. -/
def layerFinalDim (actualDim : Int) (scale : ℚ) (outputSize : Int) : Int :=
  max 1 (min outputSize (jround ((actualDim : ℚ) * (scale / ((400 : ℚ) / (outputSize : ℚ))))))

/-- Placement offset of one axis in `processLayerImageCorrected`:
`center = round(outputSize / 2)`, position re-projected by
`positionScaleAdjustment = outputSize / 400`, anchored at the center and
clamped into `[0, outputSize - finalDim]`. -/
def layerOffset (finalDim : Int) (position : ℚ) (outputSize : Int) : Int :=
  max 0 (min (outputSize - finalDim)
    (jround (((jround ((outputSize : ℚ) / 2)) : ℚ) + position * ((outputSize : ℚ) / 400)
      - (finalDim : ℚ) / 2)))

/-- Geometry of `processLayerImageCorrected`: optional percentage sub-crop of
the source, re-projection of the preview-space scale through the hard-coded
400-pixel preview canvas, clamping of the final dimensions into
`[1, outputSize]`, and center-anchored placement offsets clamped into
`[0, outputSize - finalDim]`. -/
def processLayerImageCorrected (srcWidth srcHeight : Int)
    (transformation : LayerTransformation) (outputSize : Int) : LayerPlacement :=
  let actualDims := layerActualDims srcWidth srcHeight transformation
  let finalWidth := layerFinalDim actualDims.1 transformation.scale outputSize
  let finalHeight := layerFinalDim actualDims.2 transformation.scale outputSize
  ⟨finalWidth, finalHeight,
   layerOffset finalWidth transformation.x outputSize,
   layerOffset finalHeight transformation.y outputSize⟩

/-- Identity layer transform: scale 1, no offset, sub-crop disabled. -/
def identityTransform : LayerTransformation :=
  ⟨1, 0, 0, false, none, none, none, none⟩

lemma layerFinalDim_identity (n : Int) (h1 : 1 ≤ n) (h2 : n ≤ 400) :
    layerFinalDim n 1 400 = n := by
  unfold layerFinalDim
  rw [show (1 : ℚ) / ((400 : ℚ) / ((400 : Int) : ℚ)) = 1 by norm_num, mul_one, jround_intCast]
  omega

lemma layerOffset_identity (n : Int) (h1 : 1 ≤ n) (h2 : n ≤ 400) :
    layerOffset n 0 400 = jround (((400 - n : Int) : ℚ) / 2) := by
  unfold layerOffset
  rw [show jround (((400 : Int) : ℚ) / 2) = 200 by
    rw [show ((400 : Int) : ℚ) / 2 = ((200 : Int) : ℚ) by norm_num, jround_intCast]]
  rw [show ((200 : Int) : ℚ) + 0 * (((400 : Int) : ℚ) / 400) - (n : ℚ) / 2
      = ((400 - n : Int) : ℚ) / 2 by push_cast; ring]
  have hn4 : (n : ℚ) ≤ 400 := by exact_mod_cast h2
  have hge : (0 : Int) ≤ jround (((400 - n : Int) : ℚ) / 2) := by
    refine le_jround ?_
    push_cast
    linarith
  have hle : jround (((400 - n : Int) : ℚ) / 2) ≤ 400 - n := by
    refine jround_le ?_
    push_cast
    linarith
  omega

/-- C3 (amended): with the identity transform and the output canvas equal to
the hard-coded 400-pixel preview canvas, `processLayerImageCorrected`
reproduces the source centered and unscaled — provided each source dimension
lies in `[1, 400]`.  The final dimensions equal the source dimensions and
each placement offset is `round((outputCanvasSize - sourceDim)/2)`.  Sources
larger than the output canvas are clamped instead (see the counterexample). -/
theorem processLayer_identity (w h : Int)
    (hw1 : 1 ≤ w) (hw2 : w ≤ 400) (hh1 : 1 ≤ h) (hh2 : h ≤ 400) :
    (processLayerImageCorrected w h identityTransform 400).finalWidth = w ∧
    (processLayerImageCorrected w h identityTransform 400).finalHeight = h ∧
    (processLayerImageCorrected w h identityTransform 400).left =
      jround (((400 - w : Int) : ℚ) / 2) ∧
    (processLayerImageCorrected w h identityTransform 400).top =
      jround (((400 - h : Int) : ℚ) / 2) := by
  have hd : layerActualDims w h identityTransform = (w, h) := by
    simp [layerActualDims, identityTransform]
  rw [identityTransform] at hd
  simp only [processLayerImageCorrected, identityTransform, hd]
  refine ⟨?_, ?_, ?_, ?_⟩
  · exact layerFinalDim_identity w hw1 hw2
  · exact layerFinalDim_identity h hh1 hh2
  · rw [layerFinalDim_identity w hw1 hw2]
    exact layerOffset_identity w hw1 hw2
  · rw [layerFinalDim_identity h hh1 hh2]
    exact layerOffset_identity h hh1 hh2

/-- Witness for C3: a 100×100 source under the identity transform on the
400-pixel canvas keeps its size and is centered at offset `round(300/2)`. -/
theorem processLayer_identity_witness :
    (processLayerImageCorrected 100 100 identityTransform 400).finalWidth = 100 ∧
    (processLayerImageCorrected 100 100 identityTransform 400).finalHeight = 100 ∧
    (processLayerImageCorrected 100 100 identityTransform 400).left =
      jround (((400 - 100 : Int) : ℚ) / 2) ∧
    (processLayerImageCorrected 100 100 identityTransform 400).top =
      jround (((400 - 100 : Int) : ℚ) / 2) :=
  processLayer_identity 100 100 (by norm_num) (by norm_num) (by norm_num) (by norm_num)

/-- Counterexample to C3 as frozen: a 500×500 source under the identity
transform with `previewCanvasSize = outputCanvasSize = 400` does not keep its
width — the final width is clamped to the 400-pixel canvas instead of
equalling the 500-pixel source. -/
theorem processLayer_identity_cex :
    (processLayerImageCorrected 500 500 identityTransform 400).finalWidth ≠ 500 := by
  have hd : layerActualDims 500 500 identityTransform = (500, 500) := by
    simp [layerActualDims, identityTransform]
  rw [identityTransform] at hd
  simp only [processLayerImageCorrected, identityTransform, hd]
  unfold layerFinalDim
  rw [show (1 : ℚ) / ((400 : ℚ) / ((400 : Int) : ℚ)) = 1 by norm_num, mul_one, jround_intCast]
  decide

lemma layerFinalDim_bounds (actualDim : Int) (scale : ℚ) (outputSize : Int)
    (hout : 1 ≤ outputSize) :
    1 ≤ layerFinalDim actualDim scale outputSize ∧
    layerFinalDim actualDim scale outputSize ≤ outputSize := by
  unfold layerFinalDim
  exact ⟨le_max_left _ _, max_le hout (min_le_left _ _)⟩

lemma layerOffset_bounds (finalDim : Int) (position : ℚ) (outputSize : Int)
    (hfin : finalDim ≤ outputSize) :
    0 ≤ layerOffset finalDim position outputSize ∧
    layerOffset finalDim position outputSize ≤ outputSize - finalDim := by
  unfold layerOffset
  exact ⟨le_max_left _ _, max_le (by omega) (min_le_left _ _)⟩

/-- C9: for every layer transformation with positive scale and every output
size of at least one pixel, `processLayerImageCorrected` clamps the final
width and height independently per axis into `[1, outputSize]` (arbitrarily
small scales still give a 1-pixel minimum) and clamps the offsets into
`[0, outputSize - finalDim]`, so the placed rectangle lies inside the output
canvas. -/
theorem processLayer_clamped (srcWidth srcHeight : Int)
    (transformation : LayerTransformation) (outputSize : Int)
    (hscale : 0 < transformation.scale) (hout : 1 ≤ outputSize) :
    1 ≤ (processLayerImageCorrected srcWidth srcHeight transformation outputSize).finalWidth ∧
    (processLayerImageCorrected srcWidth srcHeight transformation outputSize).finalWidth
      ≤ outputSize ∧
    1 ≤ (processLayerImageCorrected srcWidth srcHeight transformation outputSize).finalHeight ∧
    (processLayerImageCorrected srcWidth srcHeight transformation outputSize).finalHeight
      ≤ outputSize ∧
    0 ≤ (processLayerImageCorrected srcWidth srcHeight transformation outputSize).left ∧
    (processLayerImageCorrected srcWidth srcHeight transformation outputSize).left
      ≤ outputSize -
        (processLayerImageCorrected srcWidth srcHeight transformation outputSize).finalWidth ∧
    0 ≤ (processLayerImageCorrected srcWidth srcHeight transformation outputSize).top ∧
    (processLayerImageCorrected srcWidth srcHeight transformation outputSize).top
      ≤ outputSize -
        (processLayerImageCorrected srcWidth srcHeight transformation outputSize).finalHeight := by
  simp only [processLayerImageCorrected]
  obtain ⟨a1, a2⟩ := layerFinalDim_bounds
    (layerActualDims srcWidth srcHeight transformation).1 transformation.scale outputSize hout
  obtain ⟨b1, b2⟩ := layerFinalDim_bounds
    (layerActualDims srcWidth srcHeight transformation).2 transformation.scale outputSize hout
  obtain ⟨c1, c2⟩ := layerOffset_bounds _ transformation.x outputSize a2
  obtain ⟨d1, d2⟩ := layerOffset_bounds _ transformation.y outputSize b2
  exact ⟨a1, a2, b1, b2, c1, c2, d1, d2⟩

/-- Layer transform with extreme values used to instantiate the clamping
theorem: half scale, far off-canvas offsets, and an aggressive sub-crop. -/
def demoLayerTransform : LayerTransformation :=
  ⟨1/2, -1000, 1000, true, some 200, some (-5), some 50, some 50⟩

/-- Witness for C9: even with off-canvas offsets and an out-of-range sub-crop
the placement of a 100×100 source on a 64-pixel canvas stays inside it. -/
theorem processLayer_clamped_witness :
    1 ≤ (processLayerImageCorrected 100 100 demoLayerTransform 64).finalWidth ∧
    (processLayerImageCorrected 100 100 demoLayerTransform 64).finalWidth ≤ 64 ∧
    1 ≤ (processLayerImageCorrected 100 100 demoLayerTransform 64).finalHeight ∧
    (processLayerImageCorrected 100 100 demoLayerTransform 64).finalHeight ≤ 64 ∧
    0 ≤ (processLayerImageCorrected 100 100 demoLayerTransform 64).left ∧
    (processLayerImageCorrected 100 100 demoLayerTransform 64).left
      ≤ 64 - (processLayerImageCorrected 100 100 demoLayerTransform 64).finalWidth ∧
    0 ≤ (processLayerImageCorrected 100 100 demoLayerTransform 64).top ∧
    (processLayerImageCorrected 100 100 demoLayerTransform 64).top
      ≤ 64 - (processLayerImageCorrected 100 100 demoLayerTransform 64).finalHeight :=
  processLayer_clamped 100 100 demoLayerTransform 64
    (by norm_num [demoLayerTransform]) (by norm_num)

/-- Failure modes of `cropToAspectRatio`, one per `throw` site of the
geometry path. -/
inductive AspectError where
| invalidPosition
| invalidRatioSpec
| invalidCropDims
| cropExceedsImage
| negativeMax
| finalExceedsBounds
deriving DecidableEq

/-- Crop dimensions chosen by `cropToAspectRatio`: when the source is wider
than the target aspect, keep the full height and round `height * targetRatio`;
otherwise keep the full width and round `width / targetRatio`. -/
def aspectCropDims (width height : Int) (targetAspect : ℚ) : Int × Int :=
  if targetAspect < (width : ℚ) / (height : ℚ) then
    (jround ((height : ℚ) * targetAspect), height)
  else
    (width, jround ((width : ℚ) / targetAspect))

/-- Geometry of `cropToAspectRatio` (the aspect-ratio string is modelled as
the two parsed components): validate the percentage position and the ratio
values, compute the crop dimensions, re-validate them, derive the maximal
offsets, place the crop by percentage (rounded, then clamped into
`[0, maxX] × [0, maxY]`), and validate the final rectangle. -/
def cropToAspectRatio (width height : Int)
    (ratioWidth ratioHeight positionX positionY : ℚ) : Except AspectError Rect :=
  if positionX < 0 ∨ 100 < positionX ∨ positionY < 0 ∨ 100 < positionY then
    .error .invalidPosition
  else if ratioWidth ≤ 0 ∨ ratioHeight ≤ 0 then .error .invalidRatioSpec
  else
    let targetAspect := ratioWidth / ratioHeight
    let dims := aspectCropDims width height targetAspect
    let cropWidth := dims.1
    let cropHeight := dims.2
    if cropWidth ≤ 0 ∨ cropHeight ≤ 0 then .error .invalidCropDims
    else if width < cropWidth ∨ height < cropHeight then .error .cropExceedsImage
    else
      let maxX := width - cropWidth
      let maxY := height - cropHeight
      if maxX < 0 ∨ maxY < 0 then .error .negativeMax
      else
        let cropX := jround ((maxX : ℚ) * (positionX / 100))
        let cropY := jround ((maxY : ℚ) * (positionY / 100))
        let finalCropX := max 0 (min cropX maxX)
        let finalCropY := max 0 (min cropY maxY)
        if width < finalCropX + cropWidth ∨ height < finalCropY + cropHeight then
          .error .finalExceedsBounds
        else .ok ⟨finalCropX, finalCropY, cropWidth, cropHeight⟩

lemma aspectCropDims_le (width height : Int) (targetAspect : ℚ)
    (hW : 0 < width) (hH : 0 < height) (hta : 0 < targetAspect) :
    (aspectCropDims width height targetAspect).1 ≤ width ∧
    (aspectCropDims width height targetAspect).2 ≤ height := by
  have hHq : (0 : ℚ) < (height : ℚ) := by exact_mod_cast hH
  unfold aspectCropDims
  split_ifs with hlt
  · refine ⟨?_, le_refl _⟩
    refine jround_le ?_
    rw [lt_div_iff hHq] at hlt
    nlinarith
  · refine ⟨le_refl _, ?_⟩
    refine jround_le ?_
    have hle := not_lt.mp hlt
    rw [div_le_iff hHq] at hle
    have : (width : ℚ) / targetAspect ≤ (height : ℚ) := by
      rw [div_le_iff hta]
      linarith [mul_comm targetAspect (height : ℚ)]
    linarith

/-- C7: for positive source dimensions and a valid aspect specification
(positive ratio components, positions in `[0,100]`), the computed crop
dimensions never exceed the source, the maximal offsets are non-negative, and
the three geometry-error branches (crop dimensions exceed image size,
negative maximal offsets, final coordinates exceed boundaries) are
unreachable despite rounding. -/
theorem cropToAspectRatio_geometry_safe (width height : Int)
    (ratioWidth ratioHeight positionX positionY : ℚ)
    (hW : 0 < width) (hH : 0 < height) (hrw : 0 < ratioWidth) (hrh : 0 < ratioHeight)
    (hx0 : 0 ≤ positionX) (hx1 : positionX ≤ 100)
    (hy0 : 0 ≤ positionY) (hy1 : positionY ≤ 100) :
    (aspectCropDims width height (ratioWidth / ratioHeight)).1 ≤ width ∧
    (aspectCropDims width height (ratioWidth / ratioHeight)).2 ≤ height ∧
    0 ≤ width - (aspectCropDims width height (ratioWidth / ratioHeight)).1 ∧
    0 ≤ height - (aspectCropDims width height (ratioWidth / ratioHeight)).2 ∧
    cropToAspectRatio width height ratioWidth ratioHeight positionX positionY ≠
      Except.error AspectError.cropExceedsImage ∧
    cropToAspectRatio width height ratioWidth ratioHeight positionX positionY ≠
      Except.error AspectError.negativeMax ∧
    cropToAspectRatio width height ratioWidth ratioHeight positionX positionY ≠
      Except.error AspectError.finalExceedsBounds := by
  have hta : 0 < ratioWidth / ratioHeight := div_pos hrw hrh
  obtain ⟨hd1, hd2⟩ := aspectCropDims_le width height _ hW hH hta
  refine ⟨hd1, hd2, by omega, by omega, ?_, ?_, ?_⟩
  all_goals
    simp only [cropToAspectRatio]
    split_ifs with h1 h2 h3 h4 h5 h6 <;> intro hcon <;> first
      | omega
      | simp at hcon

/-- Witness for C7: a 1920×1080 source with a square target ratio at the
centered position trips none of the geometry errors. -/
theorem cropToAspectRatio_geometry_safe_witness :
    (aspectCropDims 1920 1080 ((1 : ℚ) / 1)).1 ≤ 1920 ∧
    (aspectCropDims 1920 1080 ((1 : ℚ) / 1)).2 ≤ 1080 ∧
    0 ≤ 1920 - (aspectCropDims 1920 1080 ((1 : ℚ) / 1)).1 ∧
    0 ≤ 1080 - (aspectCropDims 1920 1080 ((1 : ℚ) / 1)).2 ∧
    cropToAspectRatio 1920 1080 1 1 50 50 ≠ Except.error AspectError.cropExceedsImage ∧
    cropToAspectRatio 1920 1080 1 1 50 50 ≠ Except.error AspectError.negativeMax ∧
    cropToAspectRatio 1920 1080 1 1 50 50 ≠ Except.error AspectError.finalExceedsBounds :=
  cropToAspectRatio_geometry_safe 1920 1080 1 1 50 50 (by norm_num) (by norm_num)
    (by norm_num) (by norm_num) (by norm_num) (by norm_num) (by norm_num) (by norm_num)

/-- C8: on a 1920×1080 source with aspect ratio 1:1 and centered position the
planner returns the square crop `left = 420, top = 0, width = height = 1080`. -/
theorem cropToAspectRatio_square_1920x1080 :
    cropToAspectRatio 1920 1080 1 1 50 50 = Except.ok ⟨420, 0, 1080, 1080⟩ := by
  have hd : aspectCropDims 1920 1080 ((1 : ℚ) / 1) = (1080, 1080) := by
    unfold aspectCropDims
    rw [if_pos (by norm_num)]
    rw [show ((1080 : Int) : ℚ) * ((1 : ℚ) / 1) = ((1080 : Int) : ℚ) by norm_num, jround_intCast]
  have hcx : jround (((1920 - 1080 : Int) : ℚ) * ((50 : ℚ) / 100)) = 420 := by
    rw [show ((1920 - 1080 : Int) : ℚ) * ((50 : ℚ) / 100) = ((420 : Int) : ℚ) by norm_num,
      jround_intCast]
  have hcy : jround (((1080 - 1080 : Int) : ℚ) * ((50 : ℚ) / 100)) = 0 := by
    rw [show ((1080 - 1080 : Int) : ℚ) * ((50 : ℚ) / 100) = ((0 : Int) : ℚ) by norm_num,
      jround_intCast]
  simp only [cropToAspectRatio, hd]
  rw [if_neg (by norm_num), if_neg (by norm_num)]
  norm_num [hcx, hcy]
  rw [show jround (420 : ℚ) = 420 by
    rw [show (420 : ℚ) = ((420 : Int) : ℚ) by norm_num, jround_intCast]]
  rw [show (0 : Int) ⊔ 420 ⊓ 840 = 420 by decide]
  rw [if_neg (by decide : ¬((1920 : Int) < 420 + 1080))]

/-- Aggregate color statistics of an image (interface `ColorStats`), all
0–1-normalized means over the sampled pixels. -/
structure ColorStats where
  saturation : ℚ
  brightness : ℚ
  contrast : ℚ
  avgRed : ℚ
  avgGreen : ℚ
  avgBlue : ℚ

/-- Multiplicative color-matching parameters (interface `ColorAdjustment`). -/
structure ColorAdjustment where
  saturationMultiplier : ℚ
  brightnessMultiplier : ℚ
  hueRotation : ℚ

/-- Sampling stride of `analyzeImage`:
`Math.max(1, Math.floor(pixelCount / 10000))`. -/
def sampleStep (pixelCount : Nat) : Nat :=
  max 1 (pixelCount / 10000)

/-- Sample count of `analyzeImage`: `Math.ceil(pixelCount / sampleStep)`,
which is also the number of iterations of the sampling loop. -/
def sampleCount (pixelCount : Nat) : Nat :=
  (pixelCount + sampleStep pixelCount - 1) / sampleStep pixelCount

/-- Pixel indices visited by the sampling loop
`for (i = 0; i < pixelCount; i += sampleStep)`: the multiples of the stride
below `pixelCount`, in loop order. -/
def sampledIndices (pixelCount : Nat) : List Nat :=
  (List.range (sampleCount pixelCount)).map (fun k => k * sampleStep pixelCount)

lemma sampleStep_pos (pixelCount : Nat) : 0 < sampleStep pixelCount :=
  Nat.lt_of_lt_of_le Nat.zero_lt_one (le_max_left _ _)

/-- Sanity check that `sampledIndices` enumerates exactly the loop indices:
an index is sampled iff it is a multiple of the stride below `pixelCount`. -/
lemma mem_sampledIndices (pixelCount i : Nat) :
    i ∈ sampledIndices pixelCount ↔
      ∃ k, i = k * sampleStep pixelCount ∧ i < pixelCount := by
  have hs := sampleStep_pos pixelCount
  simp only [sampledIndices, List.mem_map, List.mem_range, sampleCount]
  constructor
  · rintro ⟨k, hk, rfl⟩
    refine ⟨k, rfl, ?_⟩
    have h1 := (Nat.le_div_iff_mul_le hs).mp (Nat.succ_le_of_lt hk)
    rw [Nat.succ_mul] at h1
    omega
  · rintro ⟨k, rfl, hlt⟩
    refine ⟨k, ?_, rfl⟩
    rw [← Nat.succ_le_iff]
    rw [Nat.le_div_iff_mul_le hs, Nat.succ_mul]
    omega

/-- Pixel at linear index `i` of the row-major raw buffer. -/
def pixelAt (buf : PixelBuffer) (i : Nat) : Pixel :=
  buf.px (i % buf.width) (i / buf.width)

/-- Normalized red channel `data[pixelIndex] / 255`. -/
def normRed (p : Pixel) : ℚ := (p.r : ℚ) / 255

/-- Normalized green channel `data[pixelIndex + 1] / 255`. -/
def normGreen (p : Pixel) : ℚ := (p.g : ℚ) / 255

/-- Normalized blue channel `data[pixelIndex + 2] / 255`. -/
def normBlue (p : Pixel) : ℚ := (p.b : ℚ) / 255

/-- HSV value scalar `max = Math.max(r, g, b)` of a sampled pixel. -/
def pixelMax (p : Pixel) : ℚ :=
  max (normRed p) (max (normGreen p) (normBlue p))

/-- HSV scalar `min = Math.min(r, g, b)` of a sampled pixel. -/
def pixelMin (p : Pixel) : ℚ :=
  min (normRed p) (min (normGreen p) (normBlue p))

/-- Per-pixel saturation `max === 0 ? 0 : (max - min) / max`. -/
def satOfPixel (p : Pixel) : ℚ :=
  if pixelMax p = 0 then 0 else (pixelMax p - pixelMin p) / pixelMax p

/-- Per-pixel brightness (HSV value). -/
def brightOfPixel (p : Pixel) : ℚ := pixelMax p

/-- Per-pixel contrast contribution `delta = max - min`. -/
def contrastOfPixel (p : Pixel) : ℚ := pixelMax p - pixelMin p

/-- Color-profile analysis of `ColorAnalyzer.analyzeImage`: accumulate the
per-pixel scalars over the strided sample and divide every accumulator by
`sampleCount = Math.ceil(pixelCount / sampleStep)`. -/
def analyzeImage (buf : PixelBuffer) : ColorStats :=
  let pixelCount := buf.width * buf.height
  let idx := sampledIndices pixelCount
  let n : ℚ := (sampleCount pixelCount : ℚ)
  { saturation := (idx.map (fun i => satOfPixel (pixelAt buf i))).sum / n
    brightness := (idx.map (fun i => brightOfPixel (pixelAt buf i))).sum / n
    contrast := (idx.map (fun i => contrastOfPixel (pixelAt buf i))).sum / n
    avgRed := (idx.map (fun i => normRed (pixelAt buf i))).sum / n
    avgGreen := (idx.map (fun i => normGreen (pixelAt buf i))).sum / n
    avgBlue := (idx.map (fun i => normBlue (pixelAt buf i))).sum / n }

lemma length_sampledIndices (pixelCount : Nat) :
    (sampledIndices pixelCount).length = sampleCount pixelCount := by
  simp [sampledIndices]

/-- Upper bound of the sample count: the stride guarantees strictly fewer
than 20000 samples (the bound 19999 is attained at `pixelCount = 19999`). -/
lemma sampleCount_le (pixelCount : Nat) : sampleCount pixelCount ≤ 19999 := by
  unfold sampleCount sampleStep
  rcases Nat.lt_or_ge pixelCount 20000 with h | h
  · have hstep : max 1 (pixelCount / 10000) = 1 := by omega
    rw [hstep]
    omega
  · have h2 : 2 ≤ pixelCount / 10000 := by omega
    have hstep : max 1 (pixelCount / 10000) = pixelCount / 10000 := by omega
    rw [hstep]
    have hpos : 0 < pixelCount / 10000 := by omega
    have hlt : (pixelCount + pixelCount / 10000 - 1) / (pixelCount / 10000) < 20000 := by
      rw [Nat.div_lt_iff_lt_mul hpos]
      omega
    omega

/-- C4 (amended): the color-profile analysis samples at most 19,999 pixels —
the stride `max(1, floor(totalPixels/10000))` bounds the sample count by
strictly less than 2·10,000, not by 10,000 (see the counterexample) — and the
reported averages are exactly the accumulated sums divided by the number of
sampled pixels. -/
theorem analyzeImage_sampling (buf : PixelBuffer) :
    (sampledIndices (buf.width * buf.height)).length ≤ 19999 ∧
    (analyzeImage buf).saturation =
      ((sampledIndices (buf.width * buf.height)).map
        (fun i => satOfPixel (pixelAt buf i))).sum /
        ((sampledIndices (buf.width * buf.height)).length : ℚ) ∧
    (analyzeImage buf).brightness =
      ((sampledIndices (buf.width * buf.height)).map
        (fun i => brightOfPixel (pixelAt buf i))).sum /
        ((sampledIndices (buf.width * buf.height)).length : ℚ) ∧
    (analyzeImage buf).contrast =
      ((sampledIndices (buf.width * buf.height)).map
        (fun i => contrastOfPixel (pixelAt buf i))).sum /
        ((sampledIndices (buf.width * buf.height)).length : ℚ) ∧
    (analyzeImage buf).avgRed =
      ((sampledIndices (buf.width * buf.height)).map
        (fun i => normRed (pixelAt buf i))).sum /
        ((sampledIndices (buf.width * buf.height)).length : ℚ) ∧
    (analyzeImage buf).avgGreen =
      ((sampledIndices (buf.width * buf.height)).map
        (fun i => normGreen (pixelAt buf i))).sum /
        ((sampledIndices (buf.width * buf.height)).length : ℚ) ∧
    (analyzeImage buf).avgBlue =
      ((sampledIndices (buf.width * buf.height)).map
        (fun i => normBlue (pixelAt buf i))).sum /
        ((sampledIndices (buf.width * buf.height)).length : ℚ) := by
  rw [length_sampledIndices]
  exact ⟨sampleCount_le _, rfl, rfl, rfl, rfl, rfl, rfl⟩

/-- Buffer violating the frozen C4 bound: 10001 pixels give stride 1 and
hence 10001 samples. -/
def wideBuf : PixelBuffer :=
  ⟨10001, 1, true, false, fun _ _ => ⟨0, 0, 0, 0⟩⟩

/-- Counterexample to C4 as frozen: on a 10001×1 buffer the sampling loop
visits 10001 pixels, exceeding 10,000. -/
theorem analyzeImage_sampling_cex :
    10000 < (sampledIndices (wideBuf.width * wideBuf.height)).length := by
  rw [length_sampledIndices]
  decide

/-- Saturation multiplier of `calculateAdjustment` before the contrast boost
and clamping: `targetRatio = target.saturation / source.saturation` guarded
against a near-zero source, `intensity / 100` scaling, and exponential
amplification (factor 1.5) above 100% intensity. -/
def saturationBase (sourceStats targetStats : ColorStats) (intensity : ℚ) : ℚ :=
  if 0.01 < sourceStats.saturation then
    let targetQuot := targetStats.saturation / sourceStats.saturation
    let baseDifference := targetQuot - 1
    let enhancedDifference := baseDifference * (intensity / 100)
    if 100 < intensity then
      let extraIntensity := (intensity - 100) / 100
      let amplification := 1 + extraIntensity * 1.5
      1 + enhancedDifference * amplification
    else 1 + enhancedDifference
  else 1

/-- Brightness multiplier of `calculateAdjustment` before clamping: the same
shape as the saturation multiplier with amplification factor 1.2. -/
def brightnessBase (sourceStats targetStats : ColorStats) (intensity : ℚ) : ℚ :=
  if 0.01 < sourceStats.brightness then
    let targetQuot := targetStats.brightness / sourceStats.brightness
    let baseDifference := targetQuot - 1
    let enhancedDifference := baseDifference * (intensity / 100)
    if 100 < intensity then
      let extraIntensity := (intensity - 100) / 100
      let amplification := 1 + extraIntensity * 1.2
      1 + enhancedDifference * amplification
    else 1 + enhancedDifference
  else 1

/-- Contrast-driven boost of the saturation multiplier: above 150% intensity,
when the target contrast exceeds the source contrast, multiply by
`1 + ((contrastRatio - 1) * (intensity - 150) / 150) * 0.3`. -/
def saturationBoosted (sourceStats targetStats : ColorStats) (intensity : ℚ) : ℚ :=
  if 150 < intensity ∧ sourceStats.contrast < targetStats.contrast then
    let contrastQuot := targetStats.contrast / max sourceStats.contrast 0.01
    let contrastBoost := 1 + ((contrastQuot - 1) * (intensity - 150) / 150) * 0.3
    saturationBase sourceStats targetStats intensity * contrastBoost
  else saturationBase sourceStats targetStats intensity

/-- Color-matching calculation of `ColorAnalyzer.calculateAdjustment`: the
two ratio-driven multipliers, the contrast boost, final clamping into
`[0.1, 5.0]` and `[0.2, 3.0]`, and a hue rotation that is always 0. -/
def calculateAdjustment (sourceStats targetStats : ColorStats)
    (intensity : ℚ) : ColorAdjustment :=
  { saturationMultiplier :=
      max 0.1 (min 5.0 (saturationBoosted sourceStats targetStats intensity))
    brightnessMultiplier :=
      max 0.2 (min 3.0 (brightnessBase sourceStats targetStats intensity))
    hueRotation := 0 }

lemma saturationBoosted_of_le150 (sourceStats targetStats : ColorStats) (intensity : ℚ)
    (hi : ¬(150 : ℚ) < intensity) :
    saturationBoosted sourceStats targetStats intensity =
      saturationBase sourceStats targetStats intensity := by
  unfold saturationBoosted
  rw [if_neg (fun hcon => hi hcon.1)]

lemma saturationBase_self100 (p : ColorStats) : saturationBase p p 100 = 1 := by
  unfold saturationBase
  split_ifs with h1 h2
  · exact absurd h2 (by norm_num)
  · have hne : p.saturation ≠ 0 := ne_of_gt (lt_trans (by norm_num) h1)
    rw [div_self hne]
    ring
  · rfl

lemma brightnessBase_self100 (p : ColorStats) : brightnessBase p p 100 = 1 := by
  unfold brightnessBase
  split_ifs with h1 h2
  · exact absurd h2 (by norm_num)
  · have hne : p.brightness ≠ 0 := ne_of_gt (lt_trans (by norm_num) h1)
    rw [div_self hne]
    ring
  · rfl

lemma saturationBase_of_nearZero (sourceStats targetStats : ColorStats) (intensity : ℚ)
    (hs : ¬(0.01 : ℚ) < sourceStats.saturation) :
    saturationBase sourceStats targetStats intensity = 1 := by
  unfold saturationBase
  rw [if_neg hs]

lemma brightnessBase_of_nearZero (sourceStats targetStats : ColorStats) (intensity : ℚ)
    (hb : ¬(0.01 : ℚ) < sourceStats.brightness) :
    brightnessBase sourceStats targetStats intensity = 1 := by
  unfold brightnessBase
  rw [if_neg hb]

lemma clampSaturation_one : max (0.1 : ℚ) (min 5.0 1) = 1 := by
  norm_num [min_def, max_def]

lemma clampBrightness_one : max (0.2 : ℚ) (min 3.0 1) = 1 := by
  norm_num [min_def, max_def]

/-- C5: matching a profile against itself at intensity 100 is the identity
adjustment — both multipliers are exactly 1. -/
theorem calculateAdjustment_self_identity (p : ColorStats) :
    (calculateAdjustment p p 100).saturationMultiplier = 1 ∧
    (calculateAdjustment p p 100).brightnessMultiplier = 1 := by
  constructor
  · simp only [calculateAdjustment]
    rw [saturationBoosted_of_le150 p p 100 (by norm_num), saturationBase_self100 p]
    exact clampSaturation_one
  · simp only [calculateAdjustment]
    rw [brightnessBase_self100 p]
    exact clampBrightness_one

/-- C6: for every pair of profiles and every intensity the adjustment always
exists, with the saturation multiplier clamped into `[0.1, 5.0]`, the
brightness multiplier clamped into `[0.2, 3.0]`, and hue rotation 0. -/
theorem calculateAdjustment_clamped (sourceStats targetStats : ColorStats)
    (intensity : ℚ) :
    0.1 ≤ (calculateAdjustment sourceStats targetStats intensity).saturationMultiplier ∧
    (calculateAdjustment sourceStats targetStats intensity).saturationMultiplier ≤ 5.0 ∧
    0.2 ≤ (calculateAdjustment sourceStats targetStats intensity).brightnessMultiplier ∧
    (calculateAdjustment sourceStats targetStats intensity).brightnessMultiplier ≤ 3.0 ∧
    (calculateAdjustment sourceStats targetStats intensity).hueRotation = 0 := by
  refine ⟨le_max_left _ _, max_le (by norm_num) (min_le_left _ _),
    le_max_left _ _, max_le (by norm_num) (min_le_left _ _), rfl⟩

/-- C10: the near-zero guard skips the ratio computation.  Whenever the
source saturation is at most 0.01 and the intensity is at most 150 (so the
contrast boost cannot fire), the saturation multiplier is exactly 1 and the
target saturation is ignored; analogously the brightness multiplier is
exactly 1 whenever the source brightness is at most 0.01. -/
theorem calculateAdjustment_nearZeroGuard (sourceStats targetStats : ColorStats)
    (intensity : ℚ) (hi : intensity ≤ 150) :
    (sourceStats.saturation ≤ 0.01 →
      (calculateAdjustment sourceStats targetStats intensity).saturationMultiplier = 1) ∧
    (sourceStats.brightness ≤ 0.01 →
      (calculateAdjustment sourceStats targetStats intensity).brightnessMultiplier = 1) := by
  have h150 : ¬((150 : ℚ) < intensity) := not_lt.mpr hi
  constructor
  · intro hs
    simp only [calculateAdjustment]
    rw [saturationBoosted_of_le150 sourceStats targetStats intensity h150,
      saturationBase_of_nearZero sourceStats targetStats intensity (not_lt.mpr hs)]
    exact clampSaturation_one
  · intro hb
    simp only [calculateAdjustment]
    rw [brightnessBase_of_nearZero sourceStats targetStats intensity (not_lt.mpr hb)]
    exact clampBrightness_one

/-- Witness for C10: a fully black source profile against a saturated bright
target at intensity 100 keeps both multipliers at exactly 1. -/
theorem calculateAdjustment_nearZeroGuard_witness :
    (calculateAdjustment ⟨0, 0, 0, 0, 0, 0⟩ ⟨1, 1, 1, 1, 1, 1⟩ 100).saturationMultiplier = 1 ∧
    (calculateAdjustment ⟨0, 0, 0, 0, 0, 0⟩ ⟨1, 1, 1, 1, 1, 1⟩ 100).brightnessMultiplier = 1 :=
  ⟨(calculateAdjustment_nearZeroGuard ⟨0, 0, 0, 0, 0, 0⟩ ⟨1, 1, 1, 1, 1, 1⟩ 100
      (by norm_num)).1 (by norm_num),
   (calculateAdjustment_nearZeroGuard ⟨0, 0, 0, 0, 0, 0⟩ ⟨1, 1, 1, 1, 1, 1⟩ 100
      (by norm_num)).2 (by norm_num)⟩
